import Mathlib

/-!
# Verification of the pikl-knowledge-base gap-detection core

Shallow embedding of the gap-detection and prioritization pipeline of the
`pikl-kb-processor` package (`models.py`, `analyze/gaps.py`, `analyze/matcher.py`,
`anonymize.py`), together with theorems settling the specification claims.

Modelling conventions:
* Python `float` scores are modelled as exact rationals (`ℚ`) in the gap
  analyzer, whose arithmetic (`+`, `*`, `min`, `/`) is exact, and as real
  numbers (`ℝ`) in the matcher, where `np.linalg.norm` needs a square root.
* IEEE NaN, which arises in `_cosine_similarity` when a vector has zero norm
  (componentwise `0.0/0.0`), is modelled as `none : Option ℝ`.
* Python's stateful methods are modelled by explicit state passing.
* `list.sort(key=..., reverse=True)` (Timsort) is a stable descending sort;
  a stable sort by a key is extensionally unique, so it is modelled by a
  stable descending insertion sort.
-/

/-! ## Data model (`models.py`)

The score type is a parameter `α`: the gap-analyzer theorems instantiate it
with `ℚ`, the matcher theorems with `Option ℝ` (NaN-aware floats). -/

inductive SourceType where
  | call_transcript
  | email
  | kb_article
deriving DecidableEq, Repr

/-- `models.Article`. The `created_at`/`updated_at` datetimes are irrelevant to
every claim and are carried opaquely as strings. -/
structure Article where
  id : String
  title : String
  body : String
  description : Option String := none
  url : Option String := none
  category : Option String := none
  tags : List String := []
  created_at : Option String := none
  updated_at : Option String := none
deriving DecidableEq, Repr

/-- `models.Question` with score type `α` (`urgency_score : float`). -/
structure Question (α : Type) where
  text : String
  source_type : SourceType
  source_id : String
  source_excerpt : Option String := none
  timestamp : Option String := none
  context : Option String := none
  urgency_score : α
  frequency : Nat := 1
deriving DecidableEq, Repr

/-- `models.AnswerCandidate`. -/
structure AnswerCandidate (α : Type) where
  text : String
  source_type : SourceType
  source_id : String
  confidence_score : α
  context : Option String := none
deriving DecidableEq, Repr

/-- `models.KBMatch`. -/
structure KBMatch (α : Type) where
  question : Question α
  article : Article
  similarity_score : α
  is_good_match : Bool
  notes : Option String := none
deriving DecidableEq, Repr

/-- `models.KnowledgeGap`. -/
structure KnowledgeGap (α : Type) where
  question : Question α
  best_match : Option (KBMatch α) := none
  answer_candidates : List (AnswerCandidate α) := []
  priority_score : α
  theme : Option String := none
deriving DecidableEq, Repr

/-! ## List helpers: stable descending sort and first-occurrence maximum

`list.sort(key=k, reverse=True)` in Python is a stable sort placing larger
keys first; among equal keys the original order is kept.  A stable descending
sort by a key is extensionally unique, so the insertion sort below computes
exactly the same list as Timsort. -/

/-- Insert `x` into a list that is already sorted descending by `key`,
placing `x` before the first element whose key is `≤ key x` (so `x`, which is
originally earlier, stays before elements with an equal key: stability). -/
def insDesc {β κ : Type} [LinearOrder κ] (key : β → κ) (x : β) : List β → List β
  | [] => [x]
  | y :: ys => if key y ≤ key x then x :: y :: ys else y :: insDesc key x ys

/-- Stable descending insertion sort by a key; models
`list.sort(key=..., reverse=True)`. -/
def sortDesc {β κ : Type} [LinearOrder κ] (key : β → κ) : List β → List β
  | [] => []
  | x :: xs => insDesc key x (sortDesc key xs)

/-- First element attaining the maximal key (earlier elements win ties). -/
def firstMaxBy {β κ : Type} [LinearOrder κ] (key : β → κ) : List β → Option β
  | [] => none
  | x :: xs =>
    match firstMaxBy key xs with
    | none => some x
    | some y => if key y ≤ key x then some x else some y

theorem insDesc_perm {β κ : Type} [LinearOrder κ] (key : β → κ) (x : β) :
    ∀ l : List β, (insDesc key x l).Perm (x :: l) := by
  intro l
  induction l with
  | nil => simp [insDesc]
  | cons y ys ih =>
    by_cases h : key y ≤ key x
    · simp [insDesc, h]
    · simp only [insDesc, if_neg h]
      exact ((ih.cons y).trans (List.Perm.swap x y ys))

theorem sortDesc_perm {β κ : Type} [LinearOrder κ] (key : β → κ) :
    ∀ l : List β, (sortDesc key l).Perm l := by
  intro l
  induction l with
  | nil => simp [sortDesc]
  | cons x xs ih => exact (insDesc_perm key x (sortDesc key xs)).trans (ih.cons x)

theorem sortDesc_eq_nil_iff {β κ : Type} [LinearOrder κ] (key : β → κ) (l : List β) :
    sortDesc key l = [] ↔ l = [] := by
  constructor
  · intro h
    have := (sortDesc_perm key l).length_eq
    rw [h] at this
    exact List.length_eq_zero.mp this.symm
  · intro h; simp [h, sortDesc]

/-- The head of the stable descending sort is the first element attaining the
maximal key: stability turns "head after sort" into first-occurrence arg-max. -/
theorem sortDesc_head {β κ : Type} [LinearOrder κ] (key : β → κ) :
    ∀ l : List β, (sortDesc key l).head? = firstMaxBy key l := by
  intro l
  induction l with
  | nil => simp [sortDesc, firstMaxBy]
  | cons x xs ih =>
    show (insDesc key x (sortDesc key xs)).head? = _
    cases hs : sortDesc key xs with
    | nil =>
      have hxs : xs = [] := (sortDesc_eq_nil_iff key xs).mp hs
      simp [hxs, insDesc, firstMaxBy]
    | cons y ys =>
      have hfm : firstMaxBy key xs = some y := by rw [← ih, hs]; rfl
      show (insDesc key x (y :: ys)).head? = firstMaxBy key (x :: xs)
      rw [firstMaxBy.eq_def]
      simp only [hfm]
      by_cases h : key y ≤ key x
      · simp [insDesc, h]
      · simp [insDesc, h]

theorem firstMaxBy_eq_none {β κ : Type} [LinearOrder κ] (key : β → κ) (l : List β) :
    firstMaxBy key l = none ↔ l = [] := by
  cases l with
  | nil => simp [firstMaxBy]
  | cons x xs =>
    simp only [firstMaxBy]
    cases h : firstMaxBy key xs with
    | none => simp
    | some y => by_cases hk : key y ≤ key x <;> simp [hk]

theorem firstMaxBy_mem {β κ : Type} [LinearOrder κ] (key : β → κ) :
    ∀ (l : List β) (b : β), firstMaxBy key l = some b → b ∈ l := by
  intro l
  induction l with
  | nil => intro b h; simp [firstMaxBy] at h
  | cons x xs ih =>
    intro b h
    rcases hfm : firstMaxBy key xs with _ | y <;>
      simp only [firstMaxBy, hfm] at h
    · simp at h; simp [h]
    · by_cases hk : key y ≤ key x
      · rw [if_pos hk] at h; simp at h; simp [h]
      · rw [if_neg hk] at h; simp at h
        exact List.mem_cons_of_mem x (h ▸ ih y hfm)

theorem firstMaxBy_max {β κ : Type} [LinearOrder κ] (key : β → κ) :
    ∀ (l : List β) (b : β), firstMaxBy key l = some b → ∀ a ∈ l, key a ≤ key b := by
  intro l
  induction l with
  | nil => intro b h; simp [firstMaxBy] at h
  | cons x xs ih =>
    intro b h a ha
    rcases hfm : firstMaxBy key xs with _ | y <;>
      simp only [firstMaxBy, hfm] at h
    · have hxs : xs = [] := (firstMaxBy_eq_none key xs).mp hfm
      subst hxs
      simp at h ha
      rw [ha, ← h]
    · rcases List.mem_cons.mp ha with hax | hmem
      · rw [hax]
        by_cases hk : key y ≤ key x
        · rw [if_pos hk] at h; simp at h; rw [← h]
        · rw [if_neg hk] at h; simp at h; rw [← h]
          exact le_of_lt (lt_of_not_le hk)
      · have hy := ih y hfm a hmem
        by_cases hk : key y ≤ key x
        · rw [if_pos hk] at h; simp at h; rw [← h]; exact hy.trans hk
        · rw [if_neg hk] at h; simp at h; rw [← h]; exact hy

/-- `firstMaxBy` commutes with mapping when the outer key reads through the map. -/
theorem firstMaxBy_map {β γ κ : Type} [LinearOrder κ] (key : γ → κ) (f : β → γ) :
    ∀ l : List β, firstMaxBy key (l.map f) = (firstMaxBy (fun b => key (f b)) l).map f := by
  intro l
  induction l with
  | nil => simp [firstMaxBy]
  | cons x xs ih =>
    simp only [List.map_cons, firstMaxBy, ih]
    rcases hfm : firstMaxBy (fun b => key (f b)) xs with _ | y <;>
      simp only [hfm, Option.map_none', Option.map_some']
    by_cases h : key (f y) ≤ key (f x) <;> simp [h]

/-! ## Gap analyzer (`analyze/gaps.py`)

Scores are exact rationals; Python float literals `0.4`, `0.2`, `0.5`, `1.0`
are the exact rationals they denote (the claims' arithmetic is exact). -/

/-- `small` is a prefix of `l` (character-for-character). -/
def chBeg : List Char → List Char → Bool
  | [], _ => true
  | _ :: _, [] => false
  | a :: as_, b :: bs => a == b && chBeg as_ bs

/-- Python's substring test `needle in haystack`, on character lists. -/
def chSub (nd : List Char) : List Char → Bool
  | [] => chBeg nd []
  | c :: cs => chBeg nd (c :: cs) || chSub nd cs

/-- `keyword in text` for strings. -/
def strIn (nd hay : String) : Bool := chSub nd.toList hay.toList

/-- The fixed theme→keyword table of `GapAnalyzer._extract_themes`
(`theme_patterns`), in source (dict-insertion) order. -/
def themePatterns : List (String × List String) := [
  ("claim", ["claim", "claims", "filing", "submit"]),
  ("policy", ["policy", "policies", "coverage", "plan"]),
  ("payment", ["payment", "pay", "billing", "invoice", "premium"]),
  ("account", ["account", "login", "password", "access"]),
  ("cancellation", ["cancel", "cancellation", "terminate", "end"]),
  ("renewal", ["renew", "renewal", "extension", "expiry", "expire"]),
  ("quote", ["quote", "quotation", "estimate", "price"]),
  ("document", ["document", "documents", "paperwork", "forms", "certificate"]),
  ("contact", ["contact", "reach", "phone", "email", "support"]),
  ("change", ["change", "update", "modify", "edit"])]

/-- `GapAnalyzer._extract_themes`: the themes whose keyword list has a member
occurring in `text` (as a substring), in table order; `["general"]` if none. -/
def extractThemes (text : String) : List String :=
  let themes := (themePatterns.filter (fun p => p.2.any (fun kw => strIn kw text))).map Prod.fst
  if themes.isEmpty then ["general"] else themes

/-- Python `str.lower()`, characterwise (`String.toLower` is equal but is not
kernel-reducible, being defined by well-founded recursion). -/
def lowerStr (s : String) : String := String.mk (s.toList.map Char.toLower)

/-- Themes of a gap's question, as consulted by `_cluster_and_theme`
(the question text is lowercased first). -/
def gapThemes (g : KnowledgeGap ℚ) : List String :=
  extractThemes (lowerStr g.question.text)

/-- `len(theme_keywords[t])` for the complete batch: the number of gaps in
`gaps` whose question text yields theme `t`.  `theme_keywords` is built for
the whole batch before any theme is assigned. -/
def themeCount (gaps : List (KnowledgeGap ℚ)) (t : String) : Nat :=
  (gaps.filter (fun g => (gapThemes g).contains t)).length

/-- The per-gap assignment step of `GapAnalyzer._cluster_and_theme`: build
`theme_counts`, sort it descending by count (stable), take the head.  The
`[]` branch mirrors the `if themes:` guard (never taken: `_extract_themes`
returns `["general"]` when nothing matches). -/
def assignTheme (gaps : List (KnowledgeGap ℚ)) (g : KnowledgeGap ℚ) : KnowledgeGap ℚ :=
  match sortDesc Prod.snd ((gapThemes g).map (fun t => (t, themeCount gaps t))) with
  | [] => g
  | c :: _ => { g with theme := some c.1 }

/-- `GapAnalyzer._cluster_and_theme`: phase 1 (the batch-wide
`theme_keywords` map) is `themeCount gaps`, computed over the full batch;
phase 2 assigns every gap its theme from that complete map. -/
def clusterAndTheme (gaps : List (KnowledgeGap ℚ)) : List (KnowledgeGap ℚ) :=
  gaps.map (assignTheme gaps)

/-- The gap built for one poor match inside `GapAnalyzer.identify_gaps`
(threshold `th` is `self.similarity_threshold`).  `answer_by_source.get(...)`
returns, in input order, the answer candidates with the question's source id. -/
def mkGap (th : ℚ) (answers : List (AnswerCandidate ℚ)) (m : KBMatch ℚ) : KnowledgeGap ℚ :=
  let q := m.question
  let relevant_answers := answers.filter (fun a => a.source_id == q.source_id)
  let gap_severity := th - m.similarity_score
  let priority := q.urgency_score * 0.4 + gap_severity * 0.4
      + min ((q.frequency : ℚ) / 10.0) 0.2
  { question := q
    best_match := if 0.5 < m.similarity_score then some m else none
    answer_candidates := relevant_answers
    priority_score := min priority 1.0
    theme := none }

/-- `GapAnalyzer.identify_gaps`: keep the matches with
`is_good_match = false`, build a gap from each, theme them, and sort the
result descending by priority (Python's stable sort). -/
def identifyGaps (th : ℚ) (kbMatches : List (KBMatch ℚ))
    (answer_candidates : List (AnswerCandidate ℚ)) : List (KnowledgeGap ℚ) :=
  let poor_matches := kbMatches.filter (fun m => !m.is_good_match)
  let gaps := poor_matches.map (mkGap th answer_candidates)
  let gaps_with_themes := clusterAndTheme gaps
  sortDesc (fun g => g.priority_score) gaps_with_themes


/-! ## Concrete example inputs used by counterexamples and witnesses -/

/-- A question with no theme keyword in its text, urgency 1.0, frequency 1. -/
def exQuestion : Question ℚ :=
  { text := "zzz", source_type := .call_transcript, source_id := "s1",
    urgency_score := 1, frequency := 1 }

def exArticle : Article := { id := "a1", title := "Cancellation Policy", body := "B" }

/-- A poor match with similarity 0.0 for `exQuestion`. -/
def exMatch : KBMatch ℚ :=
  { question := exQuestion, article := exArticle, similarity_score := 0,
    is_good_match := false }

/-! ## Gap analyzer lemmas -/

theorem extractThemes_ne_nil (text : String) : extractThemes text ≠ [] := by
  show (if ((themePatterns.filter fun p => p.2.any fun kw => strIn kw text).map Prod.fst).isEmpty = true
      then ["general"]
      else (themePatterns.filter fun p => p.2.any fun kw => strIn kw text).map Prod.fst) ≠ []
  by_cases h : ((themePatterns.filter fun p => p.2.any fun kw => strIn kw text).map Prod.fst).isEmpty = true
  · rw [if_pos h]; simp
  · rw [if_neg h]
    intro hnil
    rw [hnil] at h
    exact h rfl

/-- The candidate theme list is "general" alone, or a sublist of the fixed
keyword-table order. -/
theorem extractThemes_cases (text : String) :
    extractThemes text = ["general"] ∨
    (extractThemes text).Sublist (themePatterns.map Prod.fst) := by
  unfold extractThemes
  by_cases h : ((themePatterns.filter fun p => p.2.any fun kw => strIn kw text).map Prod.fst).isEmpty = true
  · left
    rw [if_pos h]
  · right
    rw [if_neg h]
    exact (List.filter_sublist _).map Prod.fst

/-- Theme assignment seen through `sortDesc_head`: the assigned theme is the
first candidate theme (in `_extract_themes` order) attaining the maximal
batch-wide gap count. -/
theorem assignTheme_theme_eq (gaps : List (KnowledgeGap ℚ)) (g : KnowledgeGap ℚ) :
    (assignTheme gaps g).theme
      = firstMaxBy (fun t => themeCount gaps t) (gapThemes g) := by
  have hne : gapThemes g ≠ [] := extractThemes_ne_nil _
  unfold assignTheme
  cases hs : sortDesc Prod.snd ((gapThemes g).map fun t => (t, themeCount gaps t)) with
  | nil =>
    exfalso
    have := (sortDesc_eq_nil_iff Prod.snd _).mp hs
    exact hne (List.map_eq_nil_iff.mp this)
  | cons c rest =>
    have h1 : (sortDesc Prod.snd ((gapThemes g).map fun t => (t, themeCount gaps t))).head?
        = some c := by rw [hs]; rfl
    rw [sortDesc_head, firstMaxBy_map, Option.map_eq_some'] at h1
    obtain ⟨t0, hfm, hft⟩ := h1
    show some c.1 = firstMaxBy (fun t => themeCount gaps t) (gapThemes g)
    rw [show firstMaxBy (fun t => themeCount gaps t) (gapThemes g) = some t0 from hfm, ← hft]

/-- `assignTheme` only writes the `theme` field. -/
theorem assignTheme_fields (gaps : List (KnowledgeGap ℚ)) (g : KnowledgeGap ℚ) :
    (assignTheme gaps g).question = g.question ∧
    (assignTheme gaps g).best_match = g.best_match ∧
    (assignTheme gaps g).answer_candidates = g.answer_candidates ∧
    (assignTheme gaps g).priority_score = g.priority_score := by
  unfold assignTheme
  cases hs : sortDesc Prod.snd ((gapThemes g).map fun t => (t, themeCount gaps t)) <;> simp

/-- `identify_gaps` returns a permutation (by the final priority sort) of the
themed gaps built from the poor matches, in match order. -/
theorem identifyGaps_perm (th : ℚ) (kbMatches : List (KBMatch ℚ))
    (answer_candidates : List (AnswerCandidate ℚ)) :
    (identifyGaps th kbMatches answer_candidates).Perm
      (((kbMatches.filter (fun m => !m.is_good_match)).map (mkGap th answer_candidates)).map
        (assignTheme ((kbMatches.filter (fun m => !m.is_good_match)).map (mkGap th answer_candidates)))) := by
  unfold identifyGaps clusterAndTheme
  exact sortDesc_perm _ _

/-- On a batch with exactly one poor match, `identify_gaps` returns exactly
its themed gap. -/
theorem identifyGaps_singleton (th : ℚ) (answer_candidates : List (AnswerCandidate ℚ))
    (m : KBMatch ℚ) (h : m.is_good_match = false) :
    identifyGaps th [m] answer_candidates
      = [assignTheme [mkGap th answer_candidates m] (mkGap th answer_candidates m)] := by
  unfold identifyGaps clusterAndTheme
  simp [h, sortDesc, insDesc]

/-! ## Claim C1 -/

/-- C1 counterexample: with threshold 0.75, a poor match of similarity 0.0
whose question has urgency 1.0 and frequency 1 yields priority_score 0.8,
not the claimed 0.72: the code adds `min(frequency/10.0, 0.2)` un-weighted
(contributing 0.1 here), not `0.2 * min(frequency/10.0, 0.2)`. -/
theorem C1_counterexample :
    (identifyGaps 0.75 [exMatch] []).map (fun g => g.priority_score) = [0.8] ∧
    (0.8 : ℚ) ≠ 0.72 := by
  refine ⟨?_, by norm_num⟩
  rw [identifyGaps_singleton 0.75 [] exMatch rfl]
  simp only [List.map_cons, List.map_nil, (assignTheme_fields _ _).2.2.2]
  norm_num [mkGap, exMatch, exQuestion]

/-- C1 (amended): in the same scenario, gap_severity = 0.75 - 0.0 = 0.75 and
priority_score = min(0.4*urgency + 0.4*gap_severity + min(frequency/10.0, 0.2), 1.0)
= 0.4 + 0.3 + 0.1 = 0.8. -/
theorem C1_amended_priority :
    ((0.75 : ℚ) - 0 = 0.75) ∧
    (identifyGaps 0.75 [exMatch] []).map (fun g => g.priority_score)
      = [min ((1 : ℚ) * 0.4 + (0.75 - 0) * 0.4 + min ((1 : ℚ) / 10.0) 0.2) 1.0] ∧
    min ((1 : ℚ) * 0.4 + (0.75 - 0) * 0.4 + min ((1 : ℚ) / 10.0) 0.2) 1.0 = 0.8 := by
  refine ⟨by norm_num, ?_, by norm_num⟩
  rw [identifyGaps_singleton 0.75 [] exMatch rfl]
  simp only [List.map_cons, List.map_nil, (assignTheme_fields _ _).2.2.2]
  norm_num [mkGap, exMatch, exQuestion]

/-! ## Claim C7 -/

/-- C7: in `identify_gaps` theme assignment (`_cluster_and_theme`), (i) the
batch is themed by mapping `assignTheme gaps` over the whole batch, each gap
consulting the complete batch-wide theme→gaps map (`themeCount gaps`, built
from the entire batch) before any theme is fixed; (ii) a gap whose question
text contains no theme keyword is assigned theme "general"; (iii) the
assigned theme is always a candidate theme of the gap with the maximal
member-gap count across the entire batch. -/
theorem C7_theme_assignment (gaps : List (KnowledgeGap ℚ)) (g : KnowledgeGap ℚ) :
    clusterAndTheme gaps = gaps.map (assignTheme gaps) ∧
    ((∀ p ∈ themePatterns, ∀ kw ∈ p.2, strIn kw (lowerStr g.question.text) = false) →
      (assignTheme gaps g).theme = some "general") ∧
    (∃ t, (assignTheme gaps g).theme = some t ∧ t ∈ gapThemes g ∧
      ∀ u ∈ gapThemes g, themeCount gaps u ≤ themeCount gaps t) := by
  refine ⟨rfl, ?_, ?_⟩
  · intro hno
    have hfilter : (themePatterns.filter fun p => p.2.any fun kw => strIn kw (lowerStr g.question.text)) = [] := by
      rw [List.filter_eq_nil_iff]
      intro p hp
      simp only [List.any_eq_true, not_exists]
      intro kw hkw
      exact absurd hkw.2 (by simp [hno p hp kw hkw.1])
    have hthemes : gapThemes g = ["general"] := by
      unfold gapThemes extractThemes
      rw [hfilter]
      rfl
    rw [assignTheme_theme_eq, hthemes]
    rfl
  · have hne : gapThemes g ≠ [] := extractThemes_ne_nil _
    rw [assignTheme_theme_eq]
    cases hfm : firstMaxBy (fun t => themeCount gaps t) (gapThemes g) with
    | none => exact absurd ((firstMaxBy_eq_none _ _).mp hfm) hne
    | some t0 =>
      exact ⟨t0, rfl, firstMaxBy_mem _ _ _ hfm, firstMaxBy_max _ _ _ hfm⟩

/-- C7 witness: in a batch whose only gap is built from `exMatch` (question
text "zzz" has no theme keyword), that gap is themed "general". -/
theorem C7_witness :
    (assignTheme [{ question := exQuestion, priority_score := 0 }]
        { question := exQuestion, priority_score := 0 }).theme = some "general" :=
  (C7_theme_assignment [{ question := exQuestion, priority_score := 0 }]
    { question := exQuestion, priority_score := 0 }).2.1 (by decide)

/-! ## Claim C10 -/

/-- C10: the assigned theme is the first candidate theme attaining the
maximal batch-wide count, where the candidate list is either ["general"] or
a sublist of the fixed keyword-table order (claim, policy, payment, account,
cancellation, renewal, quote, document, contact, change); hence equal-count
ties go to the theme appearing earliest in the table, via the stable
descending sort over the counts (`sortDesc_head`). -/
theorem C10_tiebreak (gaps : List (KnowledgeGap ℚ)) (g : KnowledgeGap ℚ) :
    (assignTheme gaps g).theme
      = firstMaxBy (fun t => themeCount gaps t) (gapThemes g) ∧
    (gapThemes g = ["general"] ∨ (gapThemes g).Sublist (themePatterns.map Prod.fst)) := by
  refine ⟨assignTheme_theme_eq gaps g, ?_⟩
  unfold gapThemes
  exact extractThemes_cases _

/-! ## Claim C9 -/

/-- C9: `identify_gaps` creates exactly one gap per match with
`is_good_match = false` (and none for good matches), and a created gap keeps
the originating match as `best_match` iff its similarity is strictly above
0.5, else `None`. -/
theorem C9_gap_creation (th : ℚ) (kbMatches : List (KBMatch ℚ))
    (answer_candidates : List (AnswerCandidate ℚ)) :
    (identifyGaps th kbMatches answer_candidates).length
      = (kbMatches.filter (fun m => !m.is_good_match)).length ∧
    (∀ g ∈ identifyGaps th kbMatches answer_candidates,
      ∃ m, m ∈ kbMatches ∧ m.is_good_match = false ∧ g.question = m.question ∧
        g.best_match = (if (0.5 : ℚ) < m.similarity_score then some m else none)) ∧
    (∀ m ∈ kbMatches, m.is_good_match = false →
      ∃ g, g ∈ identifyGaps th kbMatches answer_candidates ∧ g.question = m.question ∧
        g.best_match = (if (0.5 : ℚ) < m.similarity_score then some m else none)) := by
  have hperm := identifyGaps_perm th kbMatches answer_candidates
  refine ⟨?_, ?_, ?_⟩
  · rw [hperm.length_eq]; simp
  · intro g hg
    have hg2 := hperm.mem_iff.mp hg
    rw [List.map_map, List.mem_map] at hg2
    obtain ⟨m, hm, hgm⟩ := hg2
    rw [List.mem_filter] at hm
    rw [Function.comp_apply] at hgm
    refine ⟨m, hm.1, by simpa using hm.2, ?_, ?_⟩
    · rw [← hgm, (assignTheme_fields _ _).1]
      rfl
    · rw [← hgm, (assignTheme_fields _ _).2.1]
      rfl
  · intro m hm hbad
    refine ⟨assignTheme ((kbMatches.filter (fun m => !m.is_good_match)).map (mkGap th answer_candidates))
      (mkGap th answer_candidates m), ?_, ?_, ?_⟩
    · rw [hperm.mem_iff, List.map_map, List.mem_map]
      exact ⟨m, List.mem_filter.mpr ⟨hm, by simp [hbad]⟩, rfl⟩
    · rw [(assignTheme_fields _ _).1]; rfl
    · rw [(assignTheme_fields _ _).2.1]; rfl

/-- C9 witness: for the single poor match `exMatch`, exactly one gap is
created. -/
theorem C9_witness :
    (identifyGaps 0.75 [exMatch] []).length
      = ([exMatch].filter (fun m => !m.is_good_match)).length :=
  (C9_gap_creation 0.75 [exMatch] []).1

/-! ## Matcher (`analyze/matcher.py`)

Embedding vectors are lists of reals.  `np.linalg.norm` is the Euclidean
norm.  Dividing a vector by its zero norm performs componentwise
`0.0/0.0 = NaN` in IEEE arithmetic (over the reals, a vector with zero
Euclidean norm is the zero vector), and every dot product against the
resulting NaN vector is NaN; NaN-valued similarities are modelled as `none`.
Empty vectors do not occur: the embedding dimensionality is fixed and
positive. The external sentence-transformer is an opaque parameter
`encode : String → List ℝ`, deterministic per text, and encoding a batch is
encoding each member. -/

section MatcherModel

open Classical

/-- `np.linalg.norm v`: the Euclidean norm. -/
noncomputable def norm2 (v : List ℝ) : ℝ := Real.sqrt ((v.map (fun x => x * x)).sum)

/-- `v / np.linalg.norm(v)`: `none` is the all-NaN vector produced by the
unguarded division when the norm is zero (each component is then `0.0/0.0`). -/
noncomputable def normalizeVec (v : List ℝ) : Option (List ℝ) :=
  if norm2 v = 0 then none else some (v.map (fun x => x / norm2 v))

/-- `np.dot` on equal-length vectors. -/
noncomputable def dotList (a b : List ℝ) : ℝ := (List.zipWith (fun x y => x * y) a b).sum

/-- `KBMatcher._cosine_similarity` on a pair of vectors: normalize both to
unit length, then take the dot product; `none` (NaN) when a norm is zero. -/
noncomputable def cosineSim (v1 v2 : List ℝ) : Option ℝ :=
  match normalizeVec v1, normalizeVec v2 with
  | some a, some b => some (dotList a b)
  | _, _ => none

/-- `KBMatcher._cosine_similarity` with a matrix second argument: every row
is normalized and dotted with normalized `v1` (`np.dot(vec2_norm, vec1_norm)`). -/
noncomputable def cosineRows (v1 : List ℝ) (rows : List (List ℝ)) : List (Option ℝ) :=
  rows.map (fun r => cosineSim v1 r)

/-- numpy's arg-max update test: strictly greater than the current best, with
NaN (`none`) comparing as maximal. -/
def simGt : Option ℝ → Option ℝ → Prop
  | none, some _ => True
  | none, none => False
  | some _, none => False
  | some a, some b => b < a

noncomputable def argmaxGo (best : ℕ × Option ℝ) (i : ℕ) : List (Option ℝ) → ℕ
  | [] => best.1
  | s :: rest => if simGt s best.2 then argmaxGo (i, s) (i + 1) rest else argmaxGo best (i + 1) rest

/-- `np.argmax` over a row of similarities: the index of the first occurrence
of the maximum (the first NaN when one is present).  Only applied to
non-empty rows. -/
noncomputable def argmaxNp : List (Option ℝ) → ℕ
  | [] => 0
  | s :: rest => argmaxGo (0, s) 1 rest

/-- The mutable state of a `KBMatcher` (`__init__` stores the model, the
threshold, `article_embeddings = None` and `articles = []`). -/
structure MatcherState where
  similarity_threshold : ℝ
  articles : List Article := []
  article_embeddings : Option (List (List ℝ)) := none

/-- A fresh `KBMatcher`. -/
def initMatcher (threshold : ℝ) : MatcherState :=
  { similarity_threshold := threshold }

/-- The text representation of one article built by `index_articles`: the
title, then the description when truthy (Python: `None` and `""` are both
falsy), then the first 500 characters of the body, joined by " | ". -/
def articleText (a : Article) : String :=
  String.intercalate " | "
    ([a.title]
      ++ (match a.description with
          | some d => if d = "" then [] else [d]
          | none => [])
      ++ [a.body.take 500])

/-- `KBMatcher.index_articles`: `self.articles = articles` always; on an
empty list it warns and returns early, leaving any previous embedding matrix
in place; otherwise it stores one embedding per article, aligned by
position. -/
def indexArticles (encode : String → List ℝ) (st : MatcherState)
    (articles : List Article) : MatcherState :=
  if articles.isEmpty then { st with articles := articles }
  else { st with articles := articles,
                 article_embeddings := some (articles.map (fun a => encode (articleText a))) }

/-- `KBMatcher._find_best_match`: `(None, 0.0)` when there is no embedding
matrix or it is empty, else the arg-max row index with its similarity
(`float(similarities[best_idx])`, possibly NaN). -/
noncomputable def findBestMatch (st : MatcherState) (question_embedding : List ℝ) :
    Option ℕ × Option ℝ :=
  match st.article_embeddings with
  | none => (none, some 0)
  | some [] => (none, some 0)
  | some (e :: rest) =>
    (some (argmaxNp (cosineRows question_embedding (e :: rest))),
      (cosineRows question_embedding (e :: rest)).getD
        (argmaxNp (cosineRows question_embedding (e :: rest))) none)

/-- Python `similarity >= self.similarity_threshold` on a possibly-NaN float:
a NaN comparison is false. -/
noncomputable def goodFlag (threshold : ℝ) : Option ℝ → Bool
  | none => false
  | some s => if threshold ≤ s then true else false

def emptyArticle : Article := { id := "", title := "", body := "" }

/-- pydantic's validation of the fresh argument in the `KBMatch` constructor
(`models.KBMatch`): `similarity_score: float = Field(ge=0.0, le=1.0)`.  The
constructor call in the matching loop therefore raises `ValidationError`
unless `0.0 <= similarity <= 1.0`; a NaN similarity fails both comparisons
and is rejected as well.  The remaining constructor arguments (the validated
`Question` and `Article` instances, a `bool`, `None`) cannot fail. -/
noncomputable def simInRange : Option ℝ → Bool
  | none => false
  | some s => if 0 ≤ s ∧ s ≤ 1 then true else false

/-- The per-question body of the matching loop of `match_questions`: a
`KBMatch` is appended only when `_find_best_match` returned an index
(`if best_article_idx is not None`), and constructing it validates the
similarity (pydantic).  `.ok none` is the skipped-question path; `.error`
is the `ValidationError` raised out of the whole call. -/
noncomputable def matchOne (encode : String → List ℝ) (st : MatcherState)
    (q : Question (Option ℝ)) : Except String (Option (KBMatch (Option ℝ))) :=
  match findBestMatch st (encode q.text) with
  | (some idx, sim) =>
    if simInRange sim then
      .ok (some { question := q
                  article := st.articles.getD idx emptyArticle
                  similarity_score := sim
                  is_good_match := goodFlag st.similarity_threshold sim
                  notes := none })
    else .error "ValidationError: KBMatch.similarity_score"
  | (none, _) => .ok none

/-- One batch of the question loop: sequential, appending each produced
match, with a raised exception propagating immediately (the `for` loop has
no handler, so the whole call aborts). -/
def runBatch {γ δ ε : Type} (f : γ → Except ε (Option δ)) : List γ → Except ε (List δ)
  | [] => .ok []
  | x :: xs =>
    match f x with
    | .error e => .error e
    | .ok none => runBatch f xs
    | .ok (some d) =>
      match runBatch f xs with
      | .error e => .error e
      | .ok ds => .ok (d :: ds)

/-- The question loop of `match_questions` runs through slices of
`batch_size = 32`, in order; an exception raised on any question escapes
the whole call. -/
def batched32 {γ δ ε : Type} (f : γ → Except ε (Option δ)) : List γ → Except ε (List δ)
  | [] => .ok []
  | x :: xs =>
    match runBatch f ((x :: xs).take 32) with
    | .error e => .error e
    | .ok ds =>
      match batched32 f ((x :: xs).drop 32) with
      | .error e => .error e
      | .ok rest => .ok (ds ++ rest)
termination_by l => l.length
decreasing_by simp only [List.length_drop, List.length_cons]; omega

/-- The final console summary of `match_questions`. -/
def matchSummary (total good : ℕ) : String :=
  "Matched " ++ toString total ++ " questions: " ++ toString good
    ++ " good matches, " ++ toString (total - good) ++ " potential gaps"

/-- `KBMatcher.match_questions`, returning the console messages together
with the match list: with no articles or no embedding matrix it prints an
error and returns the empty list (normally — `.ok`); otherwise one candidate
match per question, in batches of 32, with an uncaught pydantic
`ValidationError` from the `KBMatch` constructor escaping the call
(`.error`).  Progress-spinner output is not modelled. -/
noncomputable def matchQuestions (encode : String → List ℝ) (st : MatcherState)
    (questions : List (Question (Option ℝ))) :
    Except String (List String × List (KBMatch (Option ℝ))) :=
  match st.articles, st.article_embeddings with
  | [], _ => .ok (["Error: KB not indexed. Call index_articles() first."], [])
  | _ :: _, none => .ok (["Error: KB not indexed. Call index_articles() first."], [])
  | _ :: _, some _ =>
    match batched32 (matchOne encode st) questions with
    | .error e => .error e
    | .ok ms =>
      .ok ([matchSummary ms.length (ms.filter (fun m => m.is_good_match)).length], ms)

/-- A question for the matcher-side examples. -/
def exQuestionR : Question (Option ℝ) :=
  { text := "q", source_type := .email, source_id := "s", urgency_score := some 1, frequency := 1 }

/-- A constant embedding function for the matcher-side examples. -/
noncomputable def encodeOne : String → List ℝ := fun _ => [1]

/-- An already-indexed matcher state for the matcher-side examples:
one article, one aligned embedding vector. -/
noncomputable def exMatcherState : MatcherState :=
  { similarity_threshold := 0.75, articles := [exArticle],
    article_embeddings := some [[1]] }

/-- An indexed matcher state whose single stored embedding points opposite
to the question embedding produced by `encodeOne`, so the best (and only)
cosine similarity is −1 — a perfectly ordinary value for cosine similarity,
whose range is [−1, 1]. -/
noncomputable def exNegState : MatcherState :=
  { similarity_threshold := 0.75, articles := [exArticle],
    article_embeddings := some [[-1]] }

/-! ## Claim C3 -/

/-- C3 counterexample: calling `match_questions` on a fresh, never-indexed
matcher does not fail — it returns normally (`.ok`) with the empty list as
its result (the "not indexed" signal is only a printed console message). -/
theorem C3_counterexample :
    matchQuestions encodeOne (initMatcher 0.75) [exQuestionR]
      = .ok (["Error: KB not indexed. Call index_articles() first."], []) :=
  rfl

/-- C3 (amended): for every question list, matching before indexing (no
articles, or no embedding matrix) returns normally with the empty result
list for the whole call, after emitting the "KB not indexed" console error;
no failure is raised and the return value is indistinguishable from an
empty result. -/
theorem C3_amended_returns_empty (encode : String → List ℝ) (st : MatcherState)
    (questions : List (Question (Option ℝ)))
    (h : st.articles = [] ∨ st.article_embeddings = none) :
    matchQuestions encode st questions
      = .ok (["Error: KB not indexed. Call index_articles() first."], []) := by
  unfold matchQuestions
  rcases h with h | h
  · rw [h]
  · rw [h]
    cases st.articles <;> rfl

/-- C3 witness: the amended statement at a fresh matcher and one question. -/
theorem C3_witness :
    matchQuestions encodeOne (initMatcher 0.75) [exQuestionR]
      = .ok (["Error: KB not indexed. Call index_articles() first."], []) :=
  C3_amended_returns_empty encodeOne (initMatcher 0.75) [exQuestionR] (Or.inl rfl)

/-! ## Claim C6 -/

/-- C6 counterexample: indexing one article and then indexing the empty list
leaves the one-row embedding matrix of the prior index in place while the
article list becomes empty — the matrix is not replaced and is no longer
positionally aligned (one row, zero articles). -/
theorem C6_counterexample :
    (indexArticles encodeOne (indexArticles encodeOne (initMatcher 0.75) [exArticle]) []).articles
      = [] ∧
    (indexArticles encodeOne (indexArticles encodeOne (initMatcher 0.75) [exArticle]) []).article_embeddings
      = some [[1]] ∧
    ∃ m, (indexArticles encodeOne (indexArticles encodeOne (initMatcher 0.75) [exArticle]) []).article_embeddings
        = some m ∧
      m.length ≠ (indexArticles encodeOne (indexArticles encodeOne (initMatcher 0.75) [exArticle]) []).articles.length :=
  ⟨rfl, rfl, [[1]], rfl, by show (1 : ℕ) ≠ ([] : List Article).length; simp⟩

/-- C6 (amended): `index_articles` with a non-empty list fully replaces both
the article list and the embedding matrix, which is positionally aligned
(row i is the embedding of the text of article i); a call with an empty list
replaces the article list but leaves the prior embedding matrix in place
(harmless for matching, which guards on the empty article list first). -/
theorem C6_amended_index_replacement (encode : String → List ℝ) (st : MatcherState)
    (articles : List Article) :
    (articles ≠ [] →
      (indexArticles encode st articles).articles = articles ∧
      (indexArticles encode st articles).article_embeddings
        = some (articles.map (fun a => encode (articleText a)))) ∧
    (indexArticles encode st []).articles = [] ∧
    (indexArticles encode st []).article_embeddings = st.article_embeddings := by
  refine ⟨fun h => ?_, rfl, rfl⟩
  unfold indexArticles
  rw [if_neg (by simpa using h)]
  exact ⟨rfl, rfl⟩

/-- C6 witness: the amended statement at a concrete one-article index. -/
theorem C6_witness :
    (indexArticles encodeOne (initMatcher 0.75) [exArticle]).articles = [exArticle] ∧
    (indexArticles encodeOne (initMatcher 0.75) [exArticle]).article_embeddings
      = some ([exArticle].map (fun a => encodeOne (articleText a))) :=
  (C6_amended_index_replacement encodeOne (initMatcher 0.75) [exArticle]).1 (by simp)

/-! ## Claim C5 -/

theorem sum_sq_nonneg (v : List ℝ) : 0 ≤ (v.map (fun x => x * x)).sum := by
  apply List.sum_nonneg
  intro x hx
  rw [List.mem_map] at hx
  obtain ⟨y, _, hy⟩ := hx
  rw [← hy]
  exact mul_self_nonneg y

theorem norm2_mul_self (v : List ℝ) : norm2 v * norm2 v = (v.map (fun x => x * x)).sum :=
  Real.mul_self_sqrt (sum_sq_nonneg v)

theorem dotList_map_div (v : List ℝ) (n : ℝ) :
    dotList (v.map (fun x => x / n)) (v.map (fun x => x / n))
      = (v.map (fun x => x * x)).sum / (n * n) := by
  unfold dotList
  induction v with
  | nil => simp
  | cons x xs ih =>
    simp only [List.map_cons, List.zipWith_cons_cons, List.sum_cons] at ih ⊢
    rw [ih]
    ring

/-- C5 counterexample: for the zero vector the unguarded division by the
zero norm yields NaN (`none`), not the similarity value 0. -/
theorem C5_counterexample :
    cosineSim [(0 : ℝ), 0] [1, 0] = none ∧ (none : Option ℝ) ≠ some 0 := by
  constructor
  · have h : norm2 [(0 : ℝ), 0] = 0 := by
      simp [norm2]
    unfold cosineSim normalizeVec
    rw [if_pos h]
  · simp

/-- C5 (amended): `_cosine_similarity` normalizes both vectors to unit length
and takes the dot product; it equals 1.0 for every vector of non-zero norm
dotted with itself; but there is no zero-vector guard — the division by the
zero norm happens and produces NaN (modelled `none`), not 0.  (The `v ≠ []`
hypothesis in the zero-norm part excludes the degenerate empty vector, for
which numpy would produce an empty normalized vector and a 0.0 dot product;
embedding vectors are never empty.) -/
theorem C5_amended_cosine :
    (∀ v : List ℝ, norm2 v ≠ 0 → cosineSim v v = some 1) ∧
    (∀ v w : List ℝ, v ≠ [] → norm2 v = 0 → cosineSim v w = none) ∧
    (∀ v w : List ℝ, norm2 v ≠ 0 → norm2 w ≠ 0 →
      cosineSim v w
        = some (dotList (v.map (fun x => x / norm2 v)) (w.map (fun x => x / norm2 w)))) := by
  refine ⟨?_, ?_, ?_⟩
  · intro v hv
    have hS : (v.map (fun x => x * x)).sum ≠ 0 := by
      intro hS
      apply hv
      unfold norm2
      rw [hS, Real.sqrt_zero]
    unfold cosineSim normalizeVec
    rw [if_neg hv]
    show some (dotList (v.map fun x => x / norm2 v) (v.map fun x => x / norm2 v)) = some 1
    rw [dotList_map_div, norm2_mul_self, div_self hS]
  · intro v w _ h0
    unfold cosineSim normalizeVec
    rw [if_pos h0]
  · intro v w hv hw
    unfold cosineSim normalizeVec
    rw [if_neg hv, if_neg hw]

/-- C5 witness: the vector (2, 0) has non-zero norm and unit self-similarity. -/
theorem C5_witness :
    norm2 [(2 : ℝ), 0] ≠ 0 ∧ cosineSim [(2 : ℝ), 0] [2, 0] = some 1 := by
  have hn : norm2 [(2 : ℝ), 0] ≠ 0 := by
    unfold norm2
    have h4 : (([(2 : ℝ), 0]).map (fun x => x * x)).sum = 4 := by norm_num
    rw [h4, Real.sqrt_ne_zero']
    norm_num
  exact ⟨hn, C5_amended_cosine.1 _ hn⟩

/-! ## Claim C2: supporting lemmas -/

/-- `runBatch` over a concatenation: run the first part, then the second,
with an error in the first part short-circuiting. -/
theorem runBatch_append {γ δ ε : Type} (f : γ → Except ε (Option δ)) :
    ∀ as bs : List γ,
      runBatch f (as ++ bs)
        = match runBatch f as with
          | .error e => .error e
          | .ok ds =>
            match runBatch f bs with
            | .error e => .error e
            | .ok rest => .ok (ds ++ rest) := by
  intro as bs
  induction as with
  | nil =>
    cases hbs : runBatch f bs <;> simp [runBatch, hbs]
  | cons x xs ih =>
    cases hfx : f x with
    | error e => simp [runBatch, hfx]
    | ok od =>
      cases od with
      | none =>
        simp only [List.cons_append, runBatch, hfx, List.append_eq]
        exact ih
      | some d =>
        simp only [List.cons_append, runBatch, hfx, List.append_eq]
        rw [ih]
        cases runBatch f xs with
        | error e => rfl
        | ok ds =>
          cases runBatch f bs with
          | error e => rfl
          | ok rest => simp

/-- Batching by 32 is a pure throughput split: the batched loop equals the
plain sequential loop over the whole question list. -/
theorem batched32_eq {γ δ ε : Type} (f : γ → Except ε (Option δ)) :
    ∀ l, batched32 f l = runBatch f l := by
  have key : ∀ (n : ℕ) (l : List γ), l.length ≤ n → batched32 f l = runBatch f l := by
    intro n
    induction n with
    | zero =>
      intro l hl
      rw [List.length_eq_zero.mp (Nat.le_zero.mp hl)]
      simp [batched32, runBatch]
    | succ n ih =>
      intro l hl
      match l with
      | [] => simp [batched32, runBatch]
      | x :: xs =>
        rw [batched32, ih ((x :: xs).drop 32)
          (by simp only [List.length_drop, List.length_cons] at hl ⊢; omega)]
        conv_rhs => rw [← List.take_append_drop 32 (x :: xs), runBatch_append]
  exact fun l => key l.length l le_rfl

theorem getD_mem_of_lt {γ : Type} : ∀ (l : List γ) (d : γ) (k : ℕ), k < l.length → l.getD k d ∈ l := by
  intro l
  induction l with
  | nil => intro d k hk; simp at hk
  | cons x xs ih =>
    intro d k hk
    match k with
    | 0 => simp
    | k + 1 => exact List.mem_cons_of_mem x (ih d k (by simpa using hk))

/-- A sequential loop whose body succeeds with a value everywhere raises
nothing, returns as many results as inputs, and is pointwise: the body
applied to the i-th input produces the i-th result. -/
theorem runBatch_all_some {γ δ ε : Type} (f : γ → Except ε (Option δ)) :
    ∀ l : List γ, (∀ a ∈ l, ∃ d, f a = .ok (some d)) →
      ∃ ds : List δ, runBatch f l = .ok ds ∧ ds.length = l.length ∧
        ∀ i (hi : i < l.length) (hdi : i < ds.length),
          f (l.get ⟨i, hi⟩) = .ok (some (ds.get ⟨i, hdi⟩)) := by
  intro l
  induction l with
  | nil => intro _; exact ⟨[], rfl, rfl, fun i hi => by simp at hi⟩
  | cons x xs ih =>
    intro h
    obtain ⟨d, hd⟩ := h x (List.mem_cons_self x xs)
    obtain ⟨ds, hds, hlen, hpt⟩ := ih (fun a ha => h a (List.mem_cons_of_mem x ha))
    refine ⟨d :: ds, by simp [runBatch, hd, hds], by simp [hlen], ?_⟩
    intro i hi hdi
    match i with
    | 0 => simpa using hd
    | i + 1 =>
      have hi2 : i < xs.length := by simpa using hi
      have hdi2 : i < ds.length := by simpa using hdi
      simpa using hpt i hi2 hdi2

/-- A list of somes is the image of its values. -/
theorem all_isSome_eq_map {γ : Type} :
    ∀ s : List (Option γ), (∀ x ∈ s, x.isSome) → ∃ vals : List γ, s = vals.map some := by
  intro s
  induction s with
  | nil => intro _; exact ⟨[], rfl⟩
  | cons x xs ih =>
    intro h
    obtain ⟨a, ha⟩ := Option.isSome_iff_exists.mp (h x (List.mem_cons_self x xs))
    obtain ⟨vals, hvals⟩ := ih (fun y hy => h y (List.mem_cons_of_mem x hy))
    exact ⟨a :: vals, by rw [ha, hvals]; rfl⟩

theorem getD_map_some {γ : Type} (l : List γ) (d : γ) :
    ∀ j, j < l.length → (l.map some).getD j none = some (l.getD j d) := by
  induction l with
  | nil => intro j hj; simp at hj
  | cons x xs ih =>
    intro j hj
    match j with
    | 0 => rfl
    | j + 1 =>
      have := ih j (by simpa using hj)
      simpa using this

theorem getD_map_of_lt {γ δ : Type} (f : γ → δ) :
    ∀ (l : List γ) (d : γ) (d2 : δ) (j : ℕ), j < l.length →
      (l.map f).getD j d2 = f (l.getD j d) := by
  intro l
  induction l with
  | nil => intro d d2 j hj; simp at hj
  | cons x xs ih =>
    intro d d2 j hj
    match j with
    | 0 => rfl
    | j + 1 =>
      have := ih d d2 j (by simpa using hj)
      simpa using this

/-- Scanning invariant of `argmaxGo` over NaN-free rows: either the running
best survives (everything later is `≤` it), or the result is the position of
the first strict improvement chain's final winner — the first occurrence of
the maximum among the remaining values. -/
theorem argmaxGo_spec :
    ∀ (l : List ℝ) (b i : ℕ) (v : ℝ),
      (argmaxGo (b, some v) i (l.map some) = b ∧ ∀ x ∈ l, x ≤ v) ∨
      (∃ j, j < l.length ∧ argmaxGo (b, some v) i (l.map some) = i + j ∧
        v < l.getD j 0 ∧ (∀ k, k < j → l.getD k 0 < l.getD j 0) ∧
        (∀ k, k < l.length → l.getD k 0 ≤ l.getD j 0)) := by
  intro l
  induction l with
  | nil => intro b i v; left; exact ⟨rfl, by simp⟩
  | cons x xs ih =>
    intro b i v
    simp only [List.map_cons, argmaxGo]
    by_cases hvx : v < x
    · rw [if_pos (show simGt (some x) (some v) from hvx)]
      rcases ih i (i + 1) x with ⟨heq, hall⟩ | ⟨j, hj, heq, hlt, hbefore, hmax⟩
      · right
        refine ⟨0, by simp, by rw [heq]; omega, by simpa using hvx, by omega, ?_⟩
        intro k hk
        match k with
        | 0 => simp
        | k + 1 =>
          simp only [List.getD_cons_succ, List.getD_cons_zero]
          exact hall _ (getD_mem_of_lt xs 0 k (by simpa using hk))
      · right
        refine ⟨j + 1, by simpa using hj, by rw [heq]; omega, ?_, ?_, ?_⟩
        · simpa using lt_trans hvx hlt
        · intro k hk
          match k with
          | 0 => simpa using hlt
          | k + 1 =>
            simp only [List.getD_cons_succ]
            exact hbefore k (by omega)
        · intro k hk
          match k with
          | 0 => simpa using le_of_lt hlt
          | k + 1 =>
            simp only [List.getD_cons_succ]
            exact hmax k (by simpa using hk)
    · rw [if_neg (show ¬ simGt (some x) (some v) from hvx)]
      rcases ih b (i + 1) v with ⟨heq, hall⟩ | ⟨j, hj, heq, hlt, hbefore, hmax⟩
      · left
        refine ⟨heq, ?_⟩
        intro y hy
        rcases List.mem_cons.mp hy with hyx | hmem
        · rw [hyx]; exact le_of_not_lt hvx
        · exact hall y hmem
      · right
        refine ⟨j + 1, by simpa using hj, by rw [heq]; omega, by simpa using hlt, ?_, ?_⟩
        · intro k hk
          match k with
          | 0 =>
            simp only [List.getD_cons_succ, List.getD_cons_zero]
            exact lt_of_le_of_lt (le_of_not_lt hvx) hlt
          | k + 1 =>
            simp only [List.getD_cons_succ]
            exact hbefore k (by omega)
        · intro k hk
          match k with
          | 0 =>
            simp only [List.getD_cons_succ, List.getD_cons_zero]
            exact le_of_lt (lt_of_le_of_lt (le_of_not_lt hvx) hlt)
          | k + 1 =>
            simp only [List.getD_cons_succ]
            exact hmax k (by simpa using hk)

/-- `np.argmax` on a non-empty NaN-free row: the first occurrence of the
maximum value. -/
theorem argmaxNp_spec (l : List ℝ) (hne : l ≠ []) :
    ∃ k, k < l.length ∧ argmaxNp (l.map some) = k ∧
      (∀ j, j < l.length → l.getD j 0 ≤ l.getD k 0) ∧
      (∀ j, j < k → l.getD j 0 < l.getD k 0) := by
  match l, hne with
  | x :: xs, _ =>
    simp only [List.map_cons, argmaxNp]
    rcases argmaxGo_spec xs 0 1 x with ⟨heq, hall⟩ | ⟨j, hj, heq, hlt, hbefore, hmax⟩
    · refine ⟨0, by simp, heq, ?_, by omega⟩
      intro k hk
      match k with
      | 0 => simp
      | k + 1 =>
        simp only [List.getD_cons_succ, List.getD_cons_zero]
        exact hall _ (getD_mem_of_lt xs 0 k (by simpa using hk))
    · refine ⟨j + 1, by simpa using hj, by rw [heq]; omega, ?_, ?_⟩
      · intro k hk
        match k with
        | 0 => simpa using le_of_lt hlt
        | k + 1 =>
          simp only [List.getD_cons_succ]
          exact hmax k (by simpa using hk)
      · intro k hk
        match k with
        | 0 => simpa using hlt
        | k + 1 =>
          simp only [List.getD_cons_succ]
          exact hbefore k (by omega)

theorem goodFlag_iff (threshold v : ℝ) :
    goodFlag threshold (some v) = true ↔ threshold ≤ v := by
  unfold goodFlag
  by_cases h : threshold ≤ v <;> simp [h]

/-- `matchOne` when the best index and similarity are known and the
similarity passes the pydantic range check: the match record is built. -/
theorem matchOne_eq_of_findBest (encode : String → List ℝ) (st : MatcherState)
    (q : Question (Option ℝ)) (idx : ℕ) (sim : Option ℝ)
    (hfb : findBestMatch st (encode q.text) = (some idx, sim))
    (hsr : simInRange sim = true) :
    matchOne encode st q = .ok (some
      { question := q, article := st.articles.getD idx emptyArticle,
        similarity_score := sim,
        is_good_match := goodFlag st.similarity_threshold sim, notes := none }) := by
  unfold matchOne
  rw [hfb]
  show (if simInRange sim = true then
          Except.ok (some
            ({ question := q, article := st.articles.getD idx emptyArticle,
               similarity_score := sim,
               is_good_match := goodFlag st.similarity_threshold sim,
               notes := none } : KBMatch (Option ℝ)))
        else Except.error "ValidationError: KBMatch.similarity_score")
      = Except.ok (some
          ({ question := q, article := st.articles.getD idx emptyArticle,
             similarity_score := sim,
             is_good_match := goodFlag st.similarity_threshold sim,
             notes := none } : KBMatch (Option ℝ)))
  rw [if_pos hsr]

/-- `matchOne` when the best similarity fails the pydantic range check: the
`KBMatch` constructor raises `ValidationError`. -/
theorem matchOne_err_of_findBest (encode : String → List ℝ) (st : MatcherState)
    (q : Question (Option ℝ)) (idx : ℕ) (sim : Option ℝ)
    (hfb : findBestMatch st (encode q.text) = (some idx, sim))
    (hsr : simInRange sim = false) :
    matchOne encode st q = .error "ValidationError: KBMatch.similarity_score" := by
  unfold matchOne
  rw [hfb]
  show (if simInRange sim = true then
          Except.ok (some
            ({ question := q, article := st.articles.getD idx emptyArticle,
               similarity_score := sim,
               is_good_match := goodFlag st.similarity_threshold sim,
               notes := none } : KBMatch (Option ℝ)))
        else Except.error "ValidationError: KBMatch.similarity_score")
      = Except.error "ValidationError: KBMatch.similarity_score"
  rw [if_neg (by rw [hsr]; exact Bool.false_ne_true)]

/-- The per-question loop body on an indexed, positionally aligned state all
of whose similarities are defined and inside pydantic's `[0, 1]` field range:
the `KBMatch` construction validates, and the match produced for `q` carries
the first-occurrence arg-max article and its similarity, with the good-match
flag testing the threshold. -/
theorem matchOne_spec (encode : String → List ℝ) (thr : ℝ) (arts : List Article)
    (embs : List (List ℝ)) (hlen : embs.length = arts.length) (hne : embs ≠ [])
    (q : Question (Option ℝ))
    (hdef : ∀ e ∈ embs, ∃ v, cosineSim (encode q.text) e = some v ∧ 0 ≤ v ∧ v ≤ 1) :
    ∃ k v, k < arts.length ∧
      (cosineRows (encode q.text) embs).getD k none = some v ∧
      matchOne encode ⟨thr, arts, some embs⟩ q = .ok (some
        { question := q, article := arts.getD k emptyArticle,
          similarity_score := some v,
          is_good_match := goodFlag thr (some v), notes := none }) ∧
      (∀ j, j < embs.length → ∀ w,
        (cosineRows (encode q.text) embs).getD j none = some w → w ≤ v) ∧
      (∀ j, j < k → ∀ w,
        (cosineRows (encode q.text) embs).getD j none = some w → w < v) := by
  have hsome : ∀ x ∈ cosineRows (encode q.text) embs, x.isSome := by
    intro x hx
    rw [cosineRows, List.mem_map] at hx
    obtain ⟨e, he, hxe⟩ := hx
    obtain ⟨v, hv, _, _⟩ := hdef e he
    rw [← hxe, hv]
    rfl
  obtain ⟨vals, hvals⟩ := all_isSome_eq_map _ hsome
  have hvlen : vals.length = embs.length := by
    have h1 := congrArg List.length hvals
    simp only [cosineRows, List.length_map] at h1
    exact h1.symm
  have hvne : vals ≠ [] := by
    intro h0
    apply hne
    rw [h0] at hvlen
    exact List.length_eq_zero.mp hvlen.symm
  obtain ⟨k, hk, hargmax, hmaxall, hfirst⟩ := argmaxNp_spec vals hvne
  have hsims_argmax : argmaxNp (cosineRows (encode q.text) embs) = k := by
    rw [hvals]; exact hargmax
  have hgd : (cosineRows (encode q.text) embs).getD k none = some (vals.getD k 0) := by
    rw [hvals]; exact getD_map_some vals 0 k hk
  have hke : k < embs.length := by omega
  have hrange : 0 ≤ vals.getD k 0 ∧ vals.getD k 0 ≤ 1 := by
    obtain ⟨w, hw, hw0, hw1⟩ := hdef (embs.getD k []) (getD_mem_of_lt embs [] k hke)
    have hcr : (cosineRows (encode q.text) embs).getD k none
        = cosineSim (encode q.text) (embs.getD k []) := by
      unfold cosineRows
      exact getD_map_of_lt _ embs [] none k hke
    have hgd2 := hgd
    rw [hcr, hw] at hgd2
    have hwv := Option.some_inj.mp hgd2
    exact ⟨hwv ▸ hw0, hwv ▸ hw1⟩
  refine ⟨k, vals.getD k 0, by omega, hgd, ?_, ?_, ?_⟩
  · have hsimr : simInRange (some (vals.getD k 0)) = true := by
      simp only [simInRange]
      rw [if_pos hrange]
    cases embs with
    | nil => exact absurd rfl hne
    | cons e rest =>
      have hfb : findBestMatch ⟨thr, arts, some (e :: rest)⟩ (encode q.text)
          = (some k, some (vals.getD k 0)) := by
        show (some (argmaxNp (cosineRows (encode q.text) (e :: rest))),
              (cosineRows (encode q.text) (e :: rest)).getD
                (argmaxNp (cosineRows (encode q.text) (e :: rest))) none)
            = (some k, some (vals.getD k 0))
        rw [hsims_argmax, hgd]
      exact matchOne_eq_of_findBest encode ⟨thr, arts, some (e :: rest)⟩ q k
        (some (vals.getD k 0)) hfb hsimr
  · intro j hj w hw
    have hjv : j < vals.length := by omega
    rw [hvals, getD_map_some vals 0 j hjv] at hw
    have := hmaxall j hjv
    simp only [Option.some_inj] at hw
    rw [hw] at this
    exact this
  · intro j hj w hw
    have hjv : j < vals.length := by omega
    rw [hvals, getD_map_some vals 0 j hjv] at hw
    have := hfirst j hj
    simp only [Option.some_inj] at hw
    rw [hw] at this
    exact this

/-! ## Claim C2 -/

/-- C2 counterexample: an indexed one-article corpus whose stored embedding
points opposite to the question embedding gives best cosine similarity −1,
which is a well-defined similarity on a well-formed corpus; the pydantic
`KBMatch` constructor then raises `ValidationError`
(`similarity_score: float = Field(ge=0.0, le=1.0)`), so `match_questions`
fails instead of returning one match for the one question. -/
theorem C2_counterexample :
    matchQuestions encodeOne exNegState [exQuestionR]
      = .error "ValidationError: KBMatch.similarity_score" := by
  have hn1 : norm2 [(1 : ℝ)] = 1 := by
    unfold norm2
    simp
  have hn2 : norm2 [(-1 : ℝ)] = 1 := by
    unfold norm2
    simp
  have hcos : cosineSim [(1 : ℝ)] [-1] = some (-1) := by
    unfold cosineSim normalizeVec
    rw [hn1, hn2, if_neg one_ne_zero, if_neg one_ne_zero]
    show some (dotList ([(1 : ℝ)].map fun x => x / 1) ([(-1 : ℝ)].map fun x => x / 1))
      = some (-1)
    norm_num [dotList]
  have henc : encodeOne exQuestionR.text = [(1 : ℝ)] := rfl
  have hrow : cosineRows (encodeOne exQuestionR.text) [[(-1 : ℝ)]] = [some (-1)] := by
    show [cosineSim (encodeOne exQuestionR.text) [(-1 : ℝ)]] = [some (-1)]
    rw [henc, hcos]
  have hfb : findBestMatch exNegState (encodeOne exQuestionR.text) = (some 0, some (-1)) := by
    show (some (argmaxNp (cosineRows (encodeOne exQuestionR.text) [[(-1 : ℝ)]])),
          (cosineRows (encodeOne exQuestionR.text) [[(-1 : ℝ)]]).getD
            (argmaxNp (cosineRows (encodeOne exQuestionR.text) [[(-1 : ℝ)]])) none)
        = (some 0, some (-1))
    rw [hrow]
    rfl
  have hs : simInRange (some (-1 : ℝ)) = false := by
    simp only [simInRange]
    rw [if_neg (by norm_num)]
  have hmo : matchOne encodeOne exNegState exQuestionR
      = .error "ValidationError: KBMatch.similarity_score" :=
    matchOne_err_of_findBest encodeOne exNegState exQuestionR 0 (some (-1)) hfb hs
  have hb : batched32 (matchOne encodeOne exNegState) [exQuestionR]
      = .error "ValidationError: KBMatch.similarity_score" := by
    rw [batched32_eq]
    simp [runBatch, hmo]
  show (match batched32 (matchOne encodeOne exNegState) [exQuestionR] with
        | .error e => .error e
        | .ok ms =>
          .ok ([matchSummary ms.length (ms.filter (fun m => m.is_good_match)).length], ms))
      = Except.error "ValidationError: KBMatch.similarity_score"
  rw [hb]

set_option maxHeartbeats 1000000 in
/-- C2 (amended): on an indexed, non-empty, positionally aligned corpus whose
cosine similarities are all well defined and within pydantic's `[0, 1]`
field range, `match_questions` returns normally with exactly one `KBMatch`
per input question, in input order; the i-th match carries the question's
arg-max article over all indexed vectors, with ties (and equal maxima)
resolved to the first occurrence in index order; its stored similarity is
that row's value; and `is_good_match` holds iff the similarity is at least
the configured threshold.  Batching by 32 does not affect any of this
(`batched32_eq`).  Without the range bound the guarantee fails: cosine
similarity ranges over [−1, 1], and a negative best similarity makes the
`KBMatch` constructor raise `ValidationError` instead
(`C2_counterexample`). -/
theorem C2_amended_match_questions (encode : String → List ℝ) (st : MatcherState)
    (questions : List (Question (Option ℝ))) (embs : List (List ℝ))
    (hemb : st.article_embeddings = some embs)
    (hlen : embs.length = st.articles.length)
    (hne : st.articles ≠ [])
    (hdef : ∀ q ∈ questions, ∀ e ∈ embs,
      ∃ v, cosineSim (encode q.text) e = some v ∧ 0 ≤ v ∧ v ≤ 1) :
    ∃ log ms, matchQuestions encode st questions = .ok (log, ms) ∧
      ms.length = questions.length ∧
      ∀ i (hi : i < questions.length) (hri : i < ms.length),
        (ms.get ⟨i, hri⟩).question = questions.get ⟨i, hi⟩ ∧
        ∃ k v, k < st.articles.length ∧
          (cosineRows (encode (questions.get ⟨i, hi⟩).text) embs).getD k none = some v ∧
          (ms.get ⟨i, hri⟩).article = st.articles.getD k emptyArticle ∧
          (ms.get ⟨i, hri⟩).similarity_score = some v ∧
          ((ms.get ⟨i, hri⟩).is_good_match = true ↔ st.similarity_threshold ≤ v) ∧
          (∀ j, j < embs.length → ∀ w,
            (cosineRows (encode (questions.get ⟨i, hi⟩).text) embs).getD j none = some w
              → w ≤ v) ∧
          (∀ j, j < k → ∀ w,
            (cosineRows (encode (questions.get ⟨i, hi⟩).text) embs).getD j none = some w
              → w < v) := by
  have hst : st = ⟨st.similarity_threshold, st.articles, some embs⟩ := by rw [← hemb]
  have hneEmb : embs ≠ [] := by
    intro h
    rw [h] at hlen
    exact hne (List.length_eq_zero.mp hlen.symm)
  have hspec : ∀ q0 ∈ questions, ∃ k v, k < st.articles.length ∧
      (cosineRows (encode q0.text) embs).getD k none = some v ∧
      matchOne encode st q0 = .ok (some
        { question := q0, article := st.articles.getD k emptyArticle,
          similarity_score := some v,
          is_good_match := goodFlag st.similarity_threshold (some v), notes := none }) ∧
      (∀ j, j < embs.length → ∀ w,
        (cosineRows (encode q0.text) embs).getD j none = some w → w ≤ v) ∧
      (∀ j, j < k → ∀ w,
        (cosineRows (encode q0.text) embs).getD j none = some w → w < v) := by
    intro q0 hq0
    have h := matchOne_spec encode st.similarity_threshold st.articles embs hlen hneEmb q0
      (hdef q0 hq0)
    rwa [← hst] at h
  have hallok : ∀ q0 ∈ questions, ∃ d, matchOne encode st q0 = .ok (some d) := by
    intro q0 hq0
    obtain ⟨k, v, _, _, heq, _, _⟩ := hspec q0 hq0
    exact ⟨_, heq⟩
  obtain ⟨ds, hds, hdslen, hdspt⟩ := runBatch_all_some (matchOne encode st) questions hallok
  have hbq : batched32 (matchOne encode st) questions = .ok ds := by
    rw [batched32_eq]
    exact hds
  have hmq : matchQuestions encode st questions
      = .ok ([matchSummary ds.length (ds.filter (fun m => m.is_good_match)).length], ds) := by
    unfold matchQuestions
    rw [hemb]
    cases harts : st.articles with
    | nil => exact absurd harts hne
    | cons a arts2 => rw [hbq]
  refine ⟨[matchSummary ds.length (ds.filter (fun m => m.is_good_match)).length], ds,
    hmq, hdslen, ?_⟩
  intro i hi hri
  have hpt := hdspt i hi hri
  obtain ⟨k, v, hk, hgd, heq, hmax, hfirst⟩ :=
    hspec (questions.get ⟨i, hi⟩) (questions.get_mem i hi)
  have hM : ds.get ⟨i, hri⟩
      = { question := questions.get ⟨i, hi⟩,
          article := st.articles.getD k emptyArticle,
          similarity_score := some v,
          is_good_match := goodFlag st.similarity_threshold (some v), notes := none } := by
    rw [heq] at hpt
    exact (Option.some_inj.mp (Except.ok.inj hpt)).symm
  rw [hM]
  exact ⟨rfl, k, v, hk, hgd, rfl, rfl, goodFlag_iff _ _, hmax, hfirst⟩

/-- C2 witness: the indexed one-article state with a unit embedding and one
question satisfies every hypothesis (the one similarity is exactly 1), and
the call returns normally with one match for the one question. -/
theorem C2_witness :
    ∃ log ms, matchQuestions encodeOne exMatcherState [exQuestionR] = .ok (log, ms) ∧
      ms.length = [exQuestionR].length := by
  have h1 : norm2 [(1 : ℝ)] ≠ 0 := by
    unfold norm2
    simp
  have hn : norm2 [(1 : ℝ)] = 1 := by
    unfold norm2
    simp
  have hdef : ∀ q ∈ [exQuestionR], ∀ e ∈ [[(1 : ℝ)]],
      ∃ v, cosineSim (encodeOne q.text) e = some v ∧ 0 ≤ v ∧ v ≤ 1 := by
    intro q hq e he
    simp only [List.mem_singleton] at hq he
    subst hq; subst he
    refine ⟨1, ?_, by norm_num, by norm_num⟩
    show cosineSim [(1 : ℝ)] [1] = some 1
    unfold cosineSim normalizeVec
    rw [hn, if_neg one_ne_zero]
    show some (dotList ([(1 : ℝ)].map fun x => x / 1) ([(1 : ℝ)].map fun x => x / 1))
      = some 1
    norm_num [dotList]
  obtain ⟨log, ms, hok, hlen, _⟩ := C2_amended_match_questions encodeOne exMatcherState
    [exQuestionR] [[1]] rfl rfl (List.cons_ne_nil _ _) hdef
  exact ⟨log, ms, hok, hlen⟩

end MatcherModel

/-! ## Anonymizer (`anonymize.py`)

`PIIAnonymizer` is ten staged `re.sub` passes over the text with a small
mutable state (replacement maps and counters).  The regular expressions are
embedded as an explicit AST with Python `re` semantics: backtracking,
leftmost match, greedy quantifiers, left-preferring alternation, and the
zero-width word-boundary assertion `\b`.  `re.sub` scans the original text
left to right and replaces non-overlapping matches; later matching continues
in the original text after the match, so the boundary context is the last
matched original character.  The inputs handled here are ASCII, where
Python's Unicode `\w`/`\s`/`\d` coincide with the ASCII ranges used below.
Each quantified subexpression of the ten patterns consumes at least one
character, so the fuel `length + 1` is never exhausted. -/

/-- Regular-expression AST: literal, class, concatenation, alternation,
counted repetition (`hi = none` = unbounded, always greedy), word boundary,
and the one capturing group the name pattern needs. -/
inductive RE where
  | eps : RE
  | ch (c : Char) : RE
  | cls (p : Char → Bool) : RE
  | seq (a b : RE) : RE
  | alt (a b : RE) : RE
  | rep (r : RE) (lo : Nat) (hi : Option Nat) : RE
  | wordB : RE
  | grp (r : RE) : RE

/-- `\w` (ASCII): letters, digits, underscore. -/
def isWordC (c : Char) : Bool :=
  ('A' ≤ c && c ≤ 'Z') || ('a' ≤ c && c ≤ 'z') || ('0' ≤ c && c ≤ '9') || c == '_'

/-- `\s` (ASCII). -/
def isSpaceC (c : Char) : Bool :=
  c == ' ' || c == '\t' || c == '\n' || c == '\r' || c == '\x0b' || c == '\x0c'

/-- Matcher state: the previous character (for `\b`), the remaining input,
and the group-1 capture. -/
structure RState where
  prev : Option Char
  rest : List Char
  g1 : Option (List Char)
deriving DecidableEq, Repr

def hiPred : Option Nat → Option Nat
  | none => none
  | some n => some (n - 1)

/-- Backtracking matcher in continuation-passing style, trying alternatives
in Python's preference order (greedy repetition first, left alternative
first); the first success wins.  The fuel decreases at every node, making
this structural (so kernel-computable); the fuel supplied by `runRe` far
exceeds the longest possible chain of nested calls for the ten patterns
(the pattern is finite and every repetition step consumes a character), so
the `fuel = 0` branch is never reached. -/
def matchRe : Nat → RE → RState → (RState → Option RState) → Option RState
  | 0, _, _, _ => none
  | fuel + 1, r, st, k =>
    match r with
    | .eps => k st
    | .ch c =>
      match st.rest with
      | [] => none
      | x :: xs => if x == c then k { st with prev := some x, rest := xs } else none
    | .cls p =>
      match st.rest with
      | [] => none
      | x :: xs => if p x then k { st with prev := some x, rest := xs } else none
    | .seq a b => matchRe fuel a st (fun st1 => matchRe fuel b st1 k)
    | .alt a b =>
      match matchRe fuel a st k with
      | some res => some res
      | none => matchRe fuel b st k
    | .wordB =>
      let leftW := match st.prev with | some c => isWordC c | none => false
      let rightW := match st.rest with | x :: _ => isWordC x | [] => false
      if leftW != rightW then k st else none
    | .grp a =>
      matchRe fuel a st (fun st1 =>
        k { st1 with g1 := some (st.rest.take (st.rest.length - st1.rest.length)) })
    | .rep a (lo+1) hi =>
      matchRe fuel a st (fun st1 => matchRe fuel (.rep a lo (hiPred hi)) st1 k)
    | .rep _ 0 (some 0) => k st
    | .rep a 0 (some (n+1)) =>
      match matchRe fuel a st (fun st1 => matchRe fuel (.rep a 0 (some n)) st1 k) with
      | some res => some res
      | none => k st
    | .rep a 0 none =>
      match matchRe fuel a st (fun st1 => matchRe fuel (.rep a 0 none) st1 k) with
      | some res => some res
      | none => k st

/-- Try a match at the current position: matched text, group-1 capture, and
the remaining input. -/
def runRe (r : RE) (prev : Option Char) (s : List Char) :
    Option (List Char × Option (List Char) × List Char) :=
  match matchRe (1000 + 100 * (s.length + 1)) r { prev := prev, rest := s, g1 := none }
      (fun st => some st) with
  | none => none
  | some st1 => some (s.take (s.length - st1.rest.length), st1.g1, st1.rest)

/-- The scanning loop of `re.sub` with a functional replacement: find the
leftmost match, emit the replacement, continue after the matched original
text.  An empty match (impossible for the ten patterns, which all consume)
is skipped like a non-match to keep the scan well founded. -/
def subGo {σ : Type} (r : RE) (f : String → Option String → σ → String × σ) :
    Nat → Option Char → List Char → σ → List Char × σ
  | 0, _, s, st => (s, st)
  | fuel + 1, prev, s, st =>
    match s with
    | [] => ([], st)
    | c :: cs =>
      match runRe r prev (c :: cs) with
      | some (matched, g1, rest) =>
        if matched.isEmpty then
          let (tl, st1) := subGo r f fuel (some c) cs st
          (c :: tl, st1)
        else
          let (rtext, st1) := f (String.mk matched) (g1.map String.mk) st
          let (tl, st2) := subGo r f fuel (matched.getLast? <|> prev) rest st1
          (rtext.toList ++ tl, st2)
      | none =>
        let (tl, st1) := subGo r f fuel (some c) cs st
        (c :: tl, st1)

/-- `re.sub(pattern, f, text)` threading a state through `f`. -/
def reSub {σ : Type} (r : RE) (f : String → Option String → σ → String × σ)
    (text : String) (st : σ) : String × σ :=
  let (cs, st1) := subGo r f (text.toList.length + 1) none text.toList st
  (String.mk cs, st1)

/-- A literal string as a regular expression. -/
def strRe (s : String) : RE := s.toList.foldr (fun c acc => .seq (.ch c) acc) .eps

/-- `?` (greedy). -/
def optRe (r : RE) : RE := .rep r 0 (some 1)

/-- Alternation list, preferring earlier entries (Python `|`). -/
def altList : List RE → RE
  | [] => .cls (fun _ => false)
  | [r] => r
  | r :: rest => .alt r (altList rest)

/-- Concatenation list. -/
def reCat : List RE → RE
  | [] => .eps
  | r :: rest => .seq r (reCat rest)

/-! ### The ten PII patterns of `PIIAnonymizer.__init__`, transcribed -/

def isDigitC (c : Char) : Bool := '0' ≤ c && c ≤ '9'
def isUpperC (c : Char) : Bool := 'A' ≤ c && c ≤ 'Z'
def isLowerC (c : Char) : Bool := 'a' ≤ c && c ≤ 'z'

/-- `[A-Za-z0-9._%+-]` (the email local part). -/
def emailLocalC (c : Char) : Bool :=
  isUpperC c || isLowerC c || isDigitC c || c == '.' || c == '_' || c == '%' || c == '+' || c == '-'

/-- `[A-Za-z0-9.-]` (the email domain). -/
def emailDomainC (c : Char) : Bool :=
  isUpperC c || isLowerC c || isDigitC c || c == '.' || c == '-'

/-- `[A-Z|a-z]` (the email TLD; the `|` is a literal member of the class). -/
def emailTldC (c : Char) : Bool := isUpperC c || c == '|' || isLowerC c

/-- `[-.\s]`. -/
def sepC (c : Char) : Bool := c == '-' || c == '.' || isSpaceC c

/-- `[-\s]`. -/
def dashSpaceC (c : Char) : Bool := c == '-' || isSpaceC c

/-- `[0-9X]`. -/
def digitXC (c : Char) : Bool := isDigitC c || c == 'X'

/-- `[A-Z0-9]`. -/
def upperDigitC (c : Char) : Bool := isUpperC c || isDigitC c

/-- The class of dash and forward slash (written dash-slash in the source
date pattern). -/
def slashDashC (c : Char) : Bool := c == '-' || c == '/'

/-- `\b[A-Za-z0-9._%+-]+@[A-Za-z0-9.-]+\.[A-Z|a-z]{2,}\b`. -/
def emailRe : RE := reCat [.wordB, .rep (.cls emailLocalC) 1 none, .ch '@',
  .rep (.cls emailDomainC) 1 none, .ch '.', .rep (.cls emailTldC) 2 none, .wordB]

/-- `\b(?:\+?1[-.\s]?)?\(?([0-9]{3})\)?[-.\s]?([0-9]{3})[-.\s]?([0-9]{4})\b`
(the capture groups are irrelevant: the replacement is a constant). -/
def phoneRe : RE := reCat [.wordB,
  optRe (reCat [optRe (.ch '+'), .ch '1', optRe (.cls sepC)]),
  optRe (.ch '('), .rep (.cls isDigitC) 3 (some 3), optRe (.ch ')'),
  optRe (.cls sepC), .rep (.cls isDigitC) 3 (some 3),
  optRe (.cls sepC), .rep (.cls isDigitC) 4 (some 4), .wordB]

/-- `\+(?:44|61|27)\s?\d{2,4}\s?\d{3,4}\s?\d{3,4}`. -/
def intlPhoneRe : RE := reCat [.ch '+',
  altList [strRe "44", strRe "61", strRe "27"],
  optRe (.cls isSpaceC), .rep (.cls isDigitC) 2 (some 4),
  optRe (.cls isSpaceC), .rep (.cls isDigitC) 3 (some 4),
  optRe (.cls isSpaceC), .rep (.cls isDigitC) 3 (some 4)]

/-- `\b[A-Z]{2,4}[-\s]?[0-9X]{2,4}[-\s]?[A-Z0-9]{2,4}[-\s]?[0-9]{2}\b`. -/
def policyRe : RE := reCat [.wordB, .rep (.cls isUpperC) 2 (some 4),
  optRe (.cls dashSpaceC), .rep (.cls digitXC) 2 (some 4),
  optRe (.cls dashSpaceC), .rep (.cls upperDigitC) 2 (some 4),
  optRe (.cls dashSpaceC), .rep (.cls isDigitC) 2 (some 2), .wordB]

/-- `\b(?:\d{4}[-\s]?){3}\d{4}\b`. -/
def creditRe : RE := reCat [.wordB,
  .rep (reCat [.rep (.cls isDigitC) 4 (some 4), optRe (.cls dashSpaceC)]) 3 (some 3),
  .rep (.cls isDigitC) 4 (some 4), .wordB]

/-- `\b\d{3}-\d{2}-\d{4}\b`. -/
def ssnRe : RE := reCat [.wordB, .rep (.cls isDigitC) 3 (some 3), .ch '-',
  .rep (.cls isDigitC) 2 (some 2), .ch '-', .rep (.cls isDigitC) 4 (some 4), .wordB]

/-- `\b[A-Z]{1,2}\d{6,8}\b`. -/
def licenseRe : RE := reCat [.wordB, .rep (.cls isUpperC) 1 (some 2),
  .rep (.cls isDigitC) 6 (some 8), .wordB]

/-- `\b\d{1,5}\s+(?:[A-Z][a-z]+\s+){1,3}(?:Street|St|Avenue|Ave|Road|Rd|Drive|Dr|Lane|Ln|Court|Ct|Boulevard|Blvd)\b`. -/
def addressRe : RE := reCat [.wordB, .rep (.cls isDigitC) 1 (some 5),
  .rep (.cls isSpaceC) 1 none,
  .rep (reCat [.cls isUpperC, .rep (.cls isLowerC) 1 none, .rep (.cls isSpaceC) 1 none]) 1 (some 3),
  altList [strRe "Street", strRe "St", strRe "Avenue", strRe "Ave", strRe "Road",
    strRe "Rd", strRe "Drive", strRe "Dr", strRe "Lane", strRe "Ln", strRe "Court",
    strRe "Ct", strRe "Boulevard", strRe "Blvd"], .wordB]

/-- `\b[A-Z]{1,2}\d{1,2}\s?\d[A-Z]{2}\b|\b\d{4}\b` — note the second
alternative: any bare four-digit group (an AU postcode). -/
def postalRe : RE := .alt
  (reCat [.wordB, .rep (.cls isUpperC) 1 (some 2), .rep (.cls isDigitC) 1 (some 2),
    optRe (.cls isSpaceC), .cls isDigitC, .rep (.cls isUpperC) 2 (some 2), .wordB])
  (reCat [.wordB, .rep (.cls isDigitC) 4 (some 4), .wordB])

/-- The date pattern: two alternatives, day-month-year or year-month-day,
each with the dash-slash separator class between the digit groups — both
alternatives require separators, so a bare year never matches. -/
def dateRe : RE := reCat [.wordB,
  .alt (reCat [.rep (.cls isDigitC) 1 (some 2), .cls slashDashC,
      .rep (.cls isDigitC) 1 (some 2), .cls slashDashC, .rep (.cls isDigitC) 2 (some 4)])
    (reCat [.rep (.cls isDigitC) 4 (some 4), .cls slashDashC,
      .rep (.cls isDigitC) 1 (some 2), .cls slashDashC, .rep (.cls isDigitC) 1 (some 2)]),
  .wordB]

/-- `\b(?:Mr\.?|Mrs\.?|Ms\.?|Miss|Dr\.?)\s+([A-Z][a-z]+(?:\s+[A-Z][a-z]+)?)\b`
(`_anonymize_names`), with the capture group around the name. -/
def namesRe : RE := reCat [.wordB,
  altList [reCat [strRe "Mr", optRe (.ch '.')], reCat [strRe "Mrs", optRe (.ch '.')],
    reCat [strRe "Ms", optRe (.ch '.')], strRe "Miss", reCat [strRe "Dr", optRe (.ch '.')]],
  .rep (.cls isSpaceC) 1 none,
  .grp (reCat [.cls isUpperC, .rep (.cls isLowerC) 1 none,
    optRe (reCat [.rep (.cls isSpaceC) 1 none, .cls isUpperC, .rep (.cls isLowerC) 1 none])]),
  .wordB]

/-! ### The anonymizer state and stage functions -/

/-- The mutable fields of a `PIIAnonymizer` instance: replacement maps
(insertion-ordered, like Python dicts) and counters. -/
structure AnonState where
  name_map : List (String × String) := []
  email_map : List (String × String) := []
  policy_map : List (String × String) := []
  name_counter : Nat := 0
  email_counter : Nat := 0
  policy_counter : Nat := 0
deriving DecidableEq, Repr

/-- `PIIAnonymizer()`. -/
def initAnon : AnonState := {}

/-- `PIIAnonymizer._anonymize_emails`: consistent replacement with
`customer{n}@example.com`. -/
def anonymizeEmails (st : AnonState) (text : String) : String × AnonState :=
  reSub emailRe
    (fun matched _ s =>
      match List.lookup matched s.email_map with
      | some v => (v, s)
      | none =>
        let c := s.email_counter + 1
        let v := "customer" ++ toString c ++ "@example.com"
        (v, { s with email_counter := c, email_map := s.email_map ++ [(matched, v)] }))
    text st

/-- Python `f"{n:04d}"`. -/
def pad4 (n : Nat) : String :=
  let s := toString n
  if s.length < 4 then String.mk (List.replicate (4 - s.length) '0') ++ s else s

/-- `PIIAnonymizer._anonymize_policies`: consistent replacement with
`POL-{n:04d}`. -/
def anonymizePolicies (st : AnonState) (text : String) : String × AnonState :=
  reSub policyRe
    (fun matched _ s =>
      match List.lookup matched s.policy_map with
      | some v => (v, s)
      | none =>
        let c := s.policy_counter + 1
        let v := "POL-" ++ pad4 c
        (v, { s with policy_counter := c, policy_map := s.policy_map ++ [(matched, v)] }))
    text st

/-- A constant replacement (stages 3-8). -/
def constRepl (t : String) : String → Option String → AnonState → String × AnonState :=
  fun _ _ s => (t, s)

/-- `PIIAnonymizer._anonymize_phones`: domestic then international. -/
def anonymizePhones (st : AnonState) (text : String) : String × AnonState :=
  let (t1, s1) := reSub phoneRe (constRepl "[REDACTED_PHONE]") text st
  reSub intlPhoneRe (constRepl "[REDACTED_PHONE]") t1 s1

/-- `re.match(r'^\d{4}$', date)` on a date-pattern match (such text never
contains a newline, so the `$`-before-final-newline subtlety cannot arise). -/
def isYearOnly (s : String) : Bool := s.toList.length == 4 && s.toList.all isDigitC

/-- `PIIAnonymizer._anonymize_dates`: keep a bare four-digit year, redact any
other date-pattern match.  Stateless. -/
def anonymizeDates (text : String) : String :=
  (reSub dateRe
    (fun matched _ (s : Unit) =>
      (if isYearOnly matched then matched else "[REDACTED_DATE]", s))
    text ()).1

/-- The fixed surname rotation of `_anonymize_names`. -/
def placeholderNames : List String :=
  ["Smith", "Johnson", "Williams", "Brown", "Jones",
   "Garcia", "Miller", "Davis", "Rodriguez", "Martinez"]

/-- `PIIAnonymizer._anonymize_names`: consistent surname placeholder for the
captured name, keeping the title (`match.group(0).split()[0]`). -/
def anonymizeNames (st : AnonState) (text : String) : String × AnonState :=
  reSub namesRe
    (fun matched g1 s =>
      let name := g1.getD ""
      let (mapped, s1) :=
        match List.lookup name s.name_map with
        | some v => (v, s)
        | none =>
          let c := s.name_counter + 1
          let v := placeholderNames.getD (c % placeholderNames.length) ""
          (v, { s with name_counter := c, name_map := s.name_map ++ [(name, v)] })
      let title := String.mk (matched.toList.takeWhile (fun c => !isSpaceC c))
      (title ++ " " ++ mapped, s1))
    text st

/-- `PIIAnonymizer.anonymize_text`: the ten stages in their fixed order
(empty input is returned unchanged). -/
def anonymizeText (st : AnonState) (text : String) : String × AnonState :=
  if text = "" then (text, st)
  else
    let (t1, s1) := anonymizeEmails st text
    let (t2, s2) := anonymizePolicies s1 t1
    let (t3, s3) := anonymizePhones s2 t2
    let (t4, s4) := reSub creditRe (constRepl "[REDACTED_CARD]") t3 s3
    let (t5, s5) := reSub ssnRe (constRepl "[REDACTED_ID]") t4 s4
    let (t6, s6) := reSub addressRe (constRepl "[REDACTED_ADDRESS]") t5 s5
    let (t7, s7) := reSub postalRe (constRepl "[REDACTED_POSTCODE]") t6 s6
    let (t8, s8) := reSub licenseRe (constRepl "[REDACTED_LICENSE]") t7 s7
    let t9 := anonymizeDates t8
    anonymizeNames s8 t9

/-! ## Claim C4 -/

/-- C4 counterexample: a bare four-digit year is not left unchanged by
`anonymize_text` — the postal-code stage (whose second alternative matches
any bare four-digit group, an AU postcode) runs before the date stage and
redacts it. -/
theorem C4_counterexample :
    (anonymizeText initAnon "1984").1 = "[REDACTED_POSTCODE]" ∧
    (anonymizeText initAnon "1984").1 ≠ "1984" := by decide

/-- C4 (amended): the date stage alone (`_anonymize_dates`) preserves bare
four-digit years and redacts fuller calendar dates, but in the full
`anonymize_text` pipeline bare four-digit years have already been redacted
as postal codes by the earlier postal-code stage. -/
theorem C4_amended_year_redacted :
    (anonymizeText initAnon "1984").1 = "[REDACTED_POSTCODE]" ∧
    anonymizeDates "in 1984" = "in 1984" ∧
    anonymizeDates "01/15/1980" = "[REDACTED_DATE]" := by decide

/-! ## Claim C8 -/

/-- C8 counterexample: anonymization is not idempotent, even granting the
claim's proviso — the email placeholder `customer1@example.com` is itself
pattern-matched as PII by the email pattern, so a second pass re-replaces it
with a fresh placeholder. -/
theorem C8_counterexample :
    (anonymizeText initAnon "a@b.co").1 = "customer1@example.com" ∧
    (anonymizeText (anonymizeText initAnon "a@b.co").2 (anonymizeText initAnon "a@b.co").1).1
      = "customer2@example.com" ∧
    (anonymizeText (anonymizeText initAnon "a@b.co").2 (anonymizeText initAnon "a@b.co").1).1
      ≠ (anonymizeText initAnon "a@b.co").1 := by decide

/-- C8 (amended): anonymization is idempotent only on text whose anonymized
form contains no substring matching any PII pattern: the bracketed
`[REDACTED_*]` tokens are such fixed points (for example the output for
"1984"), whereas the realistic email placeholders (`customerN@example.com`)
are re-matched by the email pattern and re-replaced on a second pass. -/
theorem C8_amended_fixed_point :
    (anonymizeText (anonymizeText initAnon "1984").2 (anonymizeText initAnon "1984").1).1
      = (anonymizeText initAnon "1984").1 := by decide
